import Mathlib

/-!
Shallow embedding of process_spoons.py: a pipeline that filters raw venue
drink data to beers, computes per-venue and per-region price statistics and
builds a report with leaderboards.

Modelling conventions:
  - Python floats are modelled as rationals.
  - A Python dict field that the code reads both with subscript (raising
    KeyError when absent) and with .get is modelled with an explicit
    missing state; fields only read via .get with a default are modelled
    by the defaulted value directly.
  - Fallible code (KeyError, ZeroDivisionError) is modelled with Except.
-/

/-- The pint field of a raw drink: the key may be absent, hold null, or a
number.  Subscripting an absent key raises KeyError; truthiness of the
value distinguishes 0/null/missing from a positive price. -/
inductive PyNum where
  | missing : PyNum
  | null : PyNum
  | val : ℚ → PyNum
deriving DecidableEq

/-- Result of attempting float(abv): unparsed covers a missing key, blank
string or non-numeric value (ValueError/TypeError in the source). -/
inductive Abv where
  | unparsed : Abv
  | val : ℚ → Abv
deriving DecidableEq

/-- A raw drink record.  name: absent key modelled as none (the code reads
it with .get in the classifier but subscripts it in the reducer);
cat: read only via .get with default, so modelled post-default;
oos: truthiness of drink.get('oos'). -/
structure RawDrink where
  name : Option String
  cat : String
  abv : Abv
  pint : PyNum
  oos : Bool
deriving DecidableEq

/-- A raw venue record.  name and town are subscripted (KeyError when
absent); ref/county/postcode/lat/lon are read via .get. -/
structure RawPub where
  name : Option String
  ref : Option String
  town : Option String
  county : Option String
  postcode : Option String
  lat : Option ℚ
  lon : Option ℚ
  drinks : List RawDrink
deriving DecidableEq

/-- Simplified drink entry kept per venue: name, price, abv. -/
structure SimplifiedDrink where
  name : String
  price : ℚ
  abv : Abv
deriving DecidableEq

/-- A reduced venue, mirroring the dict appended to clean_pubs.
mn and mx are the output fields named min and max. -/
structure CleanPub where
  name : String
  ref : Option String
  town : String
  county : String
  postcode : String
  lat : Option ℚ
  lon : Option ℚ
  avg : ℚ
  mn : ℚ
  mx : ℚ
  cheapest : Option String
  beers : ℕ
  drinks : List SimplifiedDrink
deriving DecidableEq

/-- need is an initial segment of hay (on character lists, so that the
kernel can evaluate it). -/
def strStarts : List Char → List Char → Bool
  | [], _ => true
  | _ :: _, [] => false
  | c :: cs, d :: ds => (c == d) && strStarts cs ds

/-- need occurs somewhere in hay. -/
def subOccurs (need : List Char) : List Char → Bool
  | [] => strStarts need []
  | c :: rest => strStarts need (c :: rest) || subOccurs need rest

/-- Python substring containment: needle in hay. -/
def strContains (hay need : String) : Bool :=
  subOccurs need.data hay.data

/-- ASCII lower-casing of a string (str.lower of the source; the data is
ASCII), on character lists so that the kernel can evaluate it. -/
def lowerChar (c : Char) : Char :=
  if 65 ≤ c.toNat ∧ c.toNat ≤ 90 then Char.ofNat (c.toNat + 32) else c

/-- str.lower(). -/
def lowerStr (s : String) : String :=
  String.mk (s.data.map lowerChar)

/-- str.strip(): remove leading and trailing whitespace. -/
def trimStr (s : String) : String :=
  String.mk
    (((s.data.dropWhile Char.isWhitespace).reverse.dropWhile
        Char.isWhitespace).reverse)

/-- Beer categories to include (case-insensitive substring match). -/
def BEER_CATS : List String :=
  ["lager", "beer", "stout", "craft", "cider", "ale", "world beer"]

/-- Names excluded as obvious non-beer. -/
def EXCLUDE : List String :=
  ["cordial", "juice", "water", "coffee", "tea", "pepsi", "cola",
   "lemonade", "j2o", "appletiser", "ginger"]

/-- Filter: only include alcoholic draught beer/lager/cider.
Mirrors is_beer in the source: the ABV gate (parsed value must be > 0,
falling back to a category-keyword check when the parse fails), then the
name-based exclusion check. -/
def is_beer (d : RawDrink) : Bool :=
  let cat := lowerStr d.cat
  let nm := lowerStr (d.name.getD "")
  let gate : Bool :=
    match d.abv with
    | Abv.val q => decide (0 < q)
    | Abv.unparsed => BEER_CATS.any (fun bc => strContains cat bc)
  if !gate then false
  else if EXCLUDE.any (fun e => strContains nm e) then false
  else true

/-- Round-half-even of a rational to an integer: the behaviour of Python's
round on the exact value (the spec pins standard round-half-to-even). -/
def rhe (q : ℚ) : ℤ :=
  if q - Int.floor q < 1/2 then Int.floor q
  else if 1/2 < q - Int.floor q then Int.floor q + 1
  else if 2 ∣ Int.floor q then Int.floor q else Int.floor q + 1

/-- round(x, 2): round-half-even at 2 decimal places. -/
def round2 (q : ℚ) : ℚ := (rhe (100 * q) : ℚ) / 100

/-- q is a whole number of pennies (an integer multiple of 0.01). -/
def isPenny (q : ℚ) : Prop := (100 * q).den = 1

instance (q : ℚ) : Decidable (isPenny q) :=
  inferInstanceAs (Decidable ((100 * q).den = 1))

/-- Python min over a list; the empty case (where Python raises
ValueError) is given a junk default and is unreachable at every call
site, each being guarded by a non-emptiness check. -/
def pyMin : List ℚ → ℚ
  | [] => 0
  | x :: xs => xs.foldl min x

/-- Python max over a list; same convention as pyMin for the empty case. -/
def pyMax : List ℚ → ℚ
  | [] => 0
  | x :: xs => xs.foldl max x

/-- Arithmetic mean sum(l)/len(l). -/
def mean (l : List ℚ) : ℚ := l.sum / (l.length : ℚ)

/-- Pint prices of in-stock drinks: the comprehension
[d[pint] for d in beers if d.get(pint) and not d.get(oos)].
Truthiness of d.get(pint) excludes a missing key, null and a 0 price. -/
def selectedPrices : List RawDrink → List ℚ
  | [] => []
  | d :: ds =>
    match d.pint with
    | PyNum.val q => if q ≠ 0 ∧ d.oos = false then q :: selectedPrices ds
                     else selectedPrices ds
    | _ => selectedPrices ds

/-- Error strings modelling the Python exceptions raised by the source. -/
def keyErrPint : String := "KeyError: pint"

def keyErrName : String := "KeyError: name"

def keyErrTown : String := "KeyError: town"

def zeroDivErr : String := "ZeroDivisionError: division by zero"

/-- next((d[name] for d in beers if d[pint] == cheapest and not
d.get(oos)), None).  Subscripting pint raises KeyError on an absent key;
comparing null against the cheapest price is False; the name of the first
match is subscripted (KeyError when absent). -/
def cheapestName : List RawDrink → ℚ → Except String (Option String)
  | [], _ => Except.ok none
  | d :: ds, q =>
    match d.pint with
    | PyNum.missing => Except.error keyErrPint
    | PyNum.null => cheapestName ds q
    | PyNum.val p =>
      if p = q ∧ d.oos = false then
        match d.name with
        | none => Except.error keyErrName
        | some nm => Except.ok (some nm)
      else cheapestName ds q

/-- The body of the dedup loop before the seen-check: project each
in-stock priced drink to name/price/abv.  The name is subscripted there
(KeyError when the key is absent); drinks failing the pint/oos guard are
skipped without touching their name. -/
def simplifyDrinks : List RawDrink → Except String (List SimplifiedDrink)
  | [] => Except.ok []
  | d :: ds =>
    match d.pint with
    | PyNum.val p =>
      if p ≠ 0 ∧ d.oos = false then
        match d.name with
        | none => Except.error keyErrName
        | some nm =>
          match simplifyDrinks ds with
          | Except.error e => Except.error e
          | Except.ok rest =>
            Except.ok ({ name := nm, price := p, abv := d.abv } :: rest)
      else simplifyDrinks ds
    | _ => simplifyDrinks ds

/-- The key a drink is deduplicated by: the (name, price) pair. -/
def drinkKey (d : SimplifiedDrink) : String × ℚ := (d.name, d.price)

/-- The seen-set dedup loop: keep the first occurrence of each
(name, price) key, in original order. -/
def dedupLoop : List SimplifiedDrink → List (String × ℚ) → List SimplifiedDrink
  | [], _ => []
  | d :: ds, seen =>
    if drinkKey d ∈ seen then dedupLoop ds seen
    else d :: dedupLoop ds (drinkKey d :: seen)

/-- Deduplicate a drink list by (name, price), first occurrence wins. -/
def dedupDrinks (l : List SimplifiedDrink) : List SimplifiedDrink :=
  dedupLoop l []

/-- Sort key for drink_list.sort(key=lambda x: x[price]): ascending by
price; Python sorts are stable and insertionSort with this relation is
stable. -/
def drinkOrd (a b : SimplifiedDrink) : Prop := a.price ≤ b.price

instance : DecidableRel drinkOrd :=
  fun a b => inferInstanceAs (Decidable (a.price ≤ b.price))

instance : IsTotal SimplifiedDrink drinkOrd := ⟨fun a b => le_total a.price b.price⟩

instance : IsTrans SimplifiedDrink drinkOrd := ⟨fun _ _ _ => le_trans⟩

/-- The dict appended to clean_pubs; the venue name and town are
subscripted in that dict literal, in that order (KeyError when absent). -/
def mkCleanPub (pub : RawPub) (prices : List ℚ) (cn : Option String)
    (dl : List SimplifiedDrink) : Except String CleanPub :=
  match pub.name with
  | none => Except.error keyErrName
  | some nm =>
    match pub.town with
    | none => Except.error keyErrTown
    | some tw =>
      Except.ok
        { name := nm
          ref := pub.ref
          town := tw
          county := pub.county.getD ""
          postcode := pub.postcode.getD ""
          lat := pub.lat
          lon := pub.lon
          avg := round2 (mean prices)
          mn := pyMin prices
          mx := pyMax prices
          cheapest := cn
          beers := dl.length
          drinks := dl }

/-- The per-venue body of the main loop: filter to beers (continue when
none), collect in-stock prices (continue when none), compute the
statistics, the cheapest drink name and the deduplicated price-sorted
drink list, and assemble the clean pub record.  Except.ok none models
continue (venue dropped); Except.error models an uncaught exception. -/
def reducePub (pub : RawPub) : Except String (Option CleanPub) :=
  let beers := pub.drinks.filter (fun d => is_beer d)
  if beers.isEmpty then Except.ok none
  else
    match selectedPrices beers with
    | [] => Except.ok none
    | p :: ps =>
      match cheapestName beers (pyMin (p :: ps)) with
      | Except.error e => Except.error e
      | Except.ok cn =>
        match simplifyDrinks beers with
        | Except.error e => Except.error e
        | Except.ok sd =>
          match mkCleanPub pub (p :: ps) cn
              (List.insertionSort drinkOrd (dedupDrinks sd)) with
          | Except.error e => Except.error e
          | Except.ok c => Except.ok (some c)

/-- The main loop over pubs: each surviving venue appends its clean
record; an exception in any venue aborts the run. -/
def reduceAll : List RawPub → Except String (List CleanPub)
  | [] => Except.ok []
  | p :: ps =>
    match reducePub p with
    | Except.error e => Except.error e
    | Except.ok r =>
      match reduceAll ps with
      | Except.error e => Except.error e
      | Except.ok rest =>
        match r with
        | none => Except.ok rest
        | some c => Except.ok (c :: rest)

/-- The static county/city/borough to region lookup table, copied
verbatim from the source dict (it has no duplicate keys, so first-match
association-list lookup agrees with the Python dict). -/
def REGION_MAP : List (String × String) :=
  [
   ("Camden", "London"),
   ("City of London", "London"),
   ("Farringdon", "London"),
   ("Hackney", "London"),
   ("Hammersmith", "London"),
   ("Hammersmith & Fulham", "London"),
   ("Islington", "London"),
   ("Lambeth", "London"),
   ("Lewisham", "London"),
   ("Southwark", "London"),
   ("Tower Hamlets", "London"),
   ("Wandsworth", "London"),
   ("Westminster", "London"),
   ("London", "London"),
   ("Middlesex", "London"),
   ("Hillingdon", "London"),
   ("Hounslow", "London"),
   ("Brent", "London"),
   ("Barnet", "London"),
   ("Enfield", "London"),
   ("Haringey", "London"),
   ("Waltham Forest", "London"),
   ("Redbridge", "London"),
   ("Newham", "London"),
   ("Barking", "London"),
   ("Barking and Dagenham", "London"),
   ("Havering", "London"),
   ("Bexley", "London"),
   ("Bromley", "London"),
   ("Croydon", "London"),
   ("Sutton", "London"),
   ("Merton", "London"),
   ("Kingston", "London"),
   ("Kingston upon Thames", "London"),
   ("Richmond", "London"),
   ("Richmond upon Thames", "London"),
   ("Ealing", "London"),
   ("Greenwich", "London"),
   ("Woolwich", "London"),
   ("Harrow", "London"),
   ("Kensington and Chelsea", "London"),
   ("Kensington", "London"),
   ("Chelsea", "London"),
   ("Edinburgh", "Scotland"),
   ("Glasgow", "Scotland"),
   ("Lanarkshire", "Scotland"),
   ("South Lanarkshire", "Scotland"),
   ("North Lanarkshire", "Scotland"),
   ("Fife", "Scotland"),
   ("Renfrewshire", "Scotland"),
   ("East Renfrewshire", "Scotland"),
   ("Ayrshire", "Scotland"),
   ("North Ayrshire", "Scotland"),
   ("East Ayrshire", "Scotland"),
   ("South Ayrshire", "Scotland"),
   ("Inverness-shire", "Scotland"),
   ("Highland", "Scotland"),
   ("Highlands", "Scotland"),
   ("Angus", "Scotland"),
   ("Aberdeenshire", "Scotland"),
   ("Aberdeen", "Scotland"),
   ("Perth and Kinross", "Scotland"),
   ("Perth", "Scotland"),
   ("Dundee", "Scotland"),
   ("Stirling", "Scotland"),
   ("Dunbartonshire", "Scotland"),
   ("West Dunbartonshire", "Scotland"),
   ("East Dunbartonshire", "Scotland"),
   ("Borders", "Scotland"),
   ("Scottish Borders", "Scotland"),
   ("Falkirk", "Scotland"),
   ("Clackmannanshire", "Scotland"),
   ("Midlothian", "Scotland"),
   ("East Lothian", "Scotland"),
   ("West Lothian", "Scotland"),
   ("Glamorgan", "Wales"),
   ("Vale of Glamorgan", "Wales"),
   ("Gwent", "Wales"),
   ("Dyfed", "Wales"),
   ("Gwynedd", "Wales"),
   ("Clwyd", "Wales"),
   ("Powys", "Wales"),
   ("Cardiff", "Wales"),
   ("Swansea", "Wales"),
   ("Carmarthenshire", "Wales"),
   ("Pembrokeshire", "Wales"),
   ("Ceredigion", "Wales"),
   ("Wrexham", "Wales"),
   ("Conwy", "Wales"),
   ("Bridgend", "Wales"),
   ("Blaenau Gwent", "Wales"),
   ("Caerphilly", "Wales"),
   ("Monmouthshire", "Wales"),
   ("Rhondda Cynon Taf", "Wales"),
   ("Neath Port Talbot", "Wales"),
   ("Torfaen", "Wales"),
   ("Newport", "Wales"),
   ("Flintshire", "Wales"),
   ("Denbighshire", "Wales"),
   ("Anglesey", "Wales"),
   ("Isle of Anglesey", "Wales"),
   ("Merthyr Tydfil", "Wales"),
   ("County Antrim", "Northern Ireland"),
   ("County Down", "Northern Ireland"),
   ("County Armagh", "Northern Ireland"),
   ("County Tyrone", "Northern Ireland"),
   ("County Londonderry", "Northern Ireland"),
   ("County Fermanagh", "Northern Ireland"),
   ("Belfast", "Northern Ireland"),
   ("Antrim", "Northern Ireland"),
   ("County Dublin", "Ireland"),
   ("Dublin", "Ireland"),
   ("County Cork", "Ireland"),
   ("County Galway", "Ireland"),
   ("County Limerick", "Ireland"),
   ("County Waterford", "Ireland"),
   ("County Wexford", "Ireland"),
   ("County Kildare", "Ireland"),
   ("Kent", "South East"),
   ("Surrey", "South East"),
   ("Sussex", "South East"),
   ("East Sussex", "South East"),
   ("West Sussex", "South East"),
   ("Hampshire", "South East"),
   ("Berkshire", "South East"),
   ("Oxfordshire", "South East"),
   ("Buckinghamshire", "South East"),
   ("Hertfordshire", "South East"),
   ("Essex", "South East"),
   ("Bedfordshire", "South East"),
   ("Devon", "South West"),
   ("Cornwall", "South West"),
   ("Somerset", "South West"),
   ("Dorset", "South West"),
   ("Wiltshire", "South West"),
   ("Gloucestershire", "South West"),
   ("Bristol", "South West"),
   ("Bath", "South West"),
   ("Bath and North East Somerset", "South West"),
   ("Norfolk", "East of England"),
   ("Suffolk", "East of England"),
   ("Cambridgeshire", "East of England"),
   ("Northamptonshire", "East of England"),
   ("West Midlands", "Midlands"),
   ("Warwickshire", "Midlands"),
   ("Staffordshire", "Midlands"),
   ("Worcestershire", "Midlands"),
   ("Shropshire", "Midlands"),
   ("Herefordshire", "Midlands"),
   ("Derbyshire", "Midlands"),
   ("Nottinghamshire", "Midlands"),
   ("Leicestershire", "Midlands"),
   ("Lincolnshire", "Midlands"),
   ("Rutland", "Midlands"),
   ("Birmingham", "Midlands"),
   ("Coventry", "Midlands"),
   ("Solihull", "Midlands"),
   ("Greater Manchester", "North West"),
   ("Lancashire", "North West"),
   ("Merseyside", "North West"),
   ("Cheshire", "North West"),
   ("Cumbria", "North West"),
   ("Manchester", "North West"),
   ("Liverpool", "North West"),
   ("Stockport", "North West"),
   ("Wigan", "North West"),
   ("Bolton", "North West"),
   ("Tyne and Wear", "North East"),
   ("County Durham", "North East"),
   ("Northumberland", "North East"),
   ("Cleveland", "North East"),
   ("Newcastle upon Tyne", "North East"),
   ("Sunderland", "North East"),
   ("Gateshead", "North East"),
   ("Durham", "North East"),
   ("Teesside", "North East"),
   ("Middlesbrough", "North East"),
   ("South Yorkshire", "Yorkshire"),
   ("West Yorkshire", "Yorkshire"),
   ("North Yorkshire", "Yorkshire"),
   ("East Riding of Yorkshire", "Yorkshire"),
   ("Sheffield", "Yorkshire"),
   ("Leeds", "Yorkshire"),
   ("York", "Yorkshire"),
   ("Bradford", "Yorkshire"),
   ("Hull", "Yorkshire"),
   ("Kingston Upon Hull", "Yorkshire"),
   ("Wakefield", "Yorkshire"),
   ("Calderdale", "Yorkshire"),
   ("Barnsley", "Yorkshire"),
   ("Doncaster", "Yorkshire"),
   ("Rotherham", "Yorkshire"),
   ("Kirklees", "Yorkshire"),
   ("Argyll and Bute", "Scotland"),
   ("Dundee City", "Scotland"),
   ("Dumfries and Galloway", "Scotland"),
   ("Moray", "Scotland"),
   ("Inverclyde", "Scotland"),
   ("Stockton-on-Tees", "North East"),
   ("Rhondda Cynon Taff", "Wales"),
   ("Telford & Wrekin", "Midlands"),
   ("South Gloucestershire", "South West"),
   ("Isle of Wight", "South East"),
   ("Greater Manchester ", "North West")]

/-- First-match lookup in an association list, the model of dict.get
with a default handled by the caller. -/
def lookupMap : List (String × String) → String → Option String
  | [], _ => none
  | (k, v) :: rest, s => if k = s then some v else lookupMap rest s

/-- REGION_MAP.get(county, county) on the stripped county string. -/
def resolveRegion (county : String) : String :=
  match lookupMap REGION_MAP (trimStr county) with
  | some r => r
  | none => trimStr county

/-- A regional rollup entry; mn and mx are the output fields named min
and max, pubs the member count. -/
structure RegionStat where
  name : String
  avg : ℚ
  pubs : ℕ
  mn : ℚ
  mx : ℚ
deriving DecidableEq

/-- regions.setdefault(region, []).append(p[avg]): append an average to
its region group, keeping first-appearance insertion order of groups. -/
def addToGroup : List (String × List ℚ) → String → ℚ → List (String × List ℚ)
  | [], region, a => [(region, [a])]
  | (r, ps) :: rest, region, a =>
    if r = region then (r, ps ++ [a]) :: rest
    else (r, ps) :: addToGroup rest region a

/-- The regions dict: group the clean pubs' averages by resolved region,
in order of first appearance (iteration follows the input order, which in
the pipeline is the average-sorted pub list). -/
def regionGroups (cps : List CleanPub) : List (String × List ℚ) :=
  cps.foldl (fun gs p => addToGroup gs (resolveRegion p.county) p.avg) []

/-- The stat record built for one region group. -/
def mkRegionStat (r : String) (ps : List ℚ) : RegionStat :=
  { name := r
    avg := round2 (mean ps)
    pubs := ps.length
    mn := round2 (pyMin ps)
    mx := round2 (pyMax ps) }

/-- regional.sort(key=lambda x: -x[avg]): descending by average, stable. -/
def regionOrd (a b : RegionStat) : Prop := b.avg ≤ a.avg

instance : DecidableRel regionOrd :=
  fun a b => inferInstanceAs (Decidable (b.avg ≤ a.avg))

instance : IsTotal RegionStat regionOrd := ⟨fun a b => le_total b.avg a.avg⟩

instance : IsTrans RegionStat regionOrd := ⟨fun _ _ _ h h2 => le_trans h2 h⟩

/-- The regional list: keep groups with at least 2 pubs, build their
stats, then sort descending by average. -/
def regionalOf (cps : List CleanPub) : List RegionStat :=
  List.insertionSort regionOrd
    ((regionGroups cps).filterMap
      (fun g => if 2 ≤ g.2.length then some (mkRegionStat g.1 g.2) else none))

/-- clean_pubs.sort(key=lambda x: x[avg]): ascending by average, stable. -/
def pubOrd (a b : CleanPub) : Prop := a.avg ≤ b.avg

instance : DecidableRel pubOrd :=
  fun a b => inferInstanceAs (Decidable (a.avg ≤ b.avg))

instance : IsTotal CleanPub pubOrd := ⟨fun a b => le_total a.avg b.avg⟩

instance : IsTrans CleanPub pubOrd := ⟨fun _ _ _ => le_trans⟩

/-- JSON-ish value for the leaderboard entry dicts. -/
inductive Val where
  | s : String → Val
  | n : ℚ → Val
  | null : Val
deriving DecidableEq

/-- Encode an optional number (null when absent). -/
def optN : Option ℚ → Val
  | none => Val.null
  | some q => Val.n q

/-- Encode an optional string (null when absent). -/
def optS : Option String → Val
  | none => Val.null
  | some s => Val.s s

/-- One entry of the cheapest leaderboard, as the ordered dict literal of
the source. -/
def cheapestEntry (p : CleanPub) : List (String × Val) :=
  [("name", Val.s p.name), ("town", Val.s p.town),
   ("postcode", Val.s p.postcode), ("avg", Val.n p.avg),
   ("min", Val.n p.mn), ("cheapest", optS p.cheapest),
   ("lat", optN p.lat), ("lon", optN p.lon)]

/-- One entry of the priciest leaderboard, as the ordered dict literal of
the source. -/
def priciestEntry (p : CleanPub) : List (String × Val) :=
  [("name", Val.s p.name), ("town", Val.s p.town),
   ("postcode", Val.s p.postcode), ("avg", Val.n p.avg),
   ("max", Val.n p.mx), ("lat", optN p.lat), ("lon", optN p.lon)]

/-- One entry of the full pubs list: public fields with the drink list
truncated to its first 10 entries. -/
structure PubOut where
  name : String
  town : String
  county : String
  postcode : String
  lat : Option ℚ
  lon : Option ℚ
  avg : ℚ
  mn : ℚ
  mx : ℚ
  cheapest : Option String
  beers : ℕ
  drinks : List SimplifiedDrink
deriving DecidableEq

/-- Projection of a clean pub to the full-list entry. -/
def pubOut (p : CleanPub) : PubOut :=
  { name := p.name, town := p.town, county := p.county
    postcode := p.postcode, lat := p.lat, lon := p.lon
    avg := p.avg, mn := p.mn, mx := p.mx
    cheapest := p.cheapest, beers := p.beers
    drinks := p.drinks.take 10 }

/-- The meta block of the output. -/
structure Meta where
  source : String
  fetchDate : String
  totalPubs : ℕ
  totalBeers : ℕ
  avgPint : ℚ
  cheapestPint : ℚ
  mostExpensivePint : ℚ
deriving DecidableEq

/-- The output structure written to spoons.json. -/
structure Report where
  meta : Meta
  regional : List RegionStat
  cheapest : List (List (String × Val))
  priciest : List (List (String × Val))
  pubs : List PubOut
deriving DecidableEq

/-- Python list slice l[-n:]: the last n elements (whole list when
shorter). -/
def lastN (n : ℕ) (l : List α) : List α := l.drop (l.length - n)

/-- Lines 96 onward of main: sort the clean pubs ascending by average,
compute the global statistics, regional rollup and leaderboards, and
assemble the output dict.  Only called on a non-empty list (the caller
models the ZeroDivisionError raised before this point otherwise). -/
def buildReport (fetchDate : String) (cleanPubs : List CleanPub) : Report :=
  let sorted := List.insertionSort pubOrd cleanPubs
  let allAvgs := sorted.map (fun p => p.avg)
  let allMins := sorted.map (fun p => p.mn)
  let nationalAvg := round2 (mean allAvgs)
  { meta :=
      { source := "Wetherspoons JDW Apps API"
        fetchDate := fetchDate
        totalPubs := sorted.length
        totalBeers := (sorted.map (fun p => p.beers)).sum
        avgPint := nationalAvg
        cheapestPint := pyMin allMins
        mostExpensivePint := pyMax (sorted.map (fun p => p.mx)) }
    regional := regionalOf sorted
    cheapest := (sorted.take 20).map cheapestEntry
    priciest := ((lastN 20 sorted).reverse).map priciestEntry
    pubs := sorted.map pubOut }

/-- The raw input: the pubs list and raw.get(meta, {}).get(fetchDate, ''). -/
structure RawData where
  pubs : List RawPub
  fetchDate : String

/-- The whole run of main after loading: reduce every pub; computing
national_avg = round(sum(all_avgs) / len(all_avgs), 2) raises
ZeroDivisionError when no pub survives reduction, before any output is
written; otherwise the report is built (and then written out). -/
def mainPipeline (raw : RawData) : Except String Report :=
  match reduceAll raw.pubs with
  | Except.error e => Except.error e
  | Except.ok cleanPubs =>
    if cleanPubs.isEmpty then Except.error zeroDivErr
    else Except.ok (buildReport raw.fetchDate cleanPubs)

/-! ## Classifier properties -/

/-- C4: a drink whose (lower-cased) name contains any exclusion keyword is
rejected by the classifier, regardless of its ABV (in particular even when
the ABV parses to a value greater than 0). -/
theorem is_beer_false_of_excluded (d : RawDrink)
    (h : ∃ e ∈ EXCLUDE, strContains (lowerStr (d.name.getD "")) e = true) :
    is_beer d = false := by
  rcases h with ⟨e, he, hc⟩
  have hx : (EXCLUDE.any (fun e => strContains (lowerStr (d.name.getD "")) e)) = true :=
    List.any_eq_true.mpr ⟨e, he, hc⟩
  simp only [is_beer, hx]
  split <;> simp

/-- Witness drink for C4: positive parsed ABV but an excluded name. -/
def wPepsi : RawDrink :=
  { name := some "Pepsi Max", cat := "soft drinks", abv := Abv.val 5,
    pint := PyNum.val 2, oos := false }

/-- C4 witness: the exclusion hypothesis holds for a concrete drink with
ABV 5 and the classifier rejects it. -/
theorem is_beer_false_of_excluded_witness :
    (∃ e ∈ EXCLUDE, strContains (lowerStr (wPepsi.name.getD "")) e = true)
      ∧ is_beer wPepsi = false := by
  constructor
  · exact ⟨"pepsi", by decide, by decide⟩
  · exact is_beer_false_of_excluded wPepsi ⟨"pepsi", by decide, by decide⟩

/-- C5: a drink whose ABV parses to a value less than or equal to 0 is
rejected by the classifier, regardless of its category text. -/
theorem is_beer_false_of_nonpos_abv (d : RawDrink) (q : ℚ)
    (habv : d.abv = Abv.val q) (hq : q ≤ 0) : is_beer d = false := by
  simp only [is_beer, habv]
  simp [not_lt.mpr hq]

/-- Witness drink for C5: ABV exactly 0 with a beer category. -/
def wZeroAbv : RawDrink :=
  { name := some "Test Lager", cat := "lager", abv := Abv.val 0,
    pint := PyNum.val 3, oos := false }

/-- C5 witness: a concrete zero-ABV drink with category lager is
rejected. -/
theorem is_beer_false_of_nonpos_abv_witness :
    wZeroAbv.abv = Abv.val 0 ∧ (0 : ℚ) ≤ 0 ∧ is_beer wZeroAbv = false :=
  ⟨rfl, le_refl 0, is_beer_false_of_nonpos_abv wZeroAbv 0 rfl (le_refl 0)⟩

/-! ## Dedup properties -/

/-- Everything the dedup loop emits has a key outside seen, and the
emitted keys are pairwise distinct. -/
theorem dedupLoop_fresh : ∀ (l : List SimplifiedDrink) (seen : List (String × ℚ)),
    (∀ d ∈ dedupLoop l seen, drinkKey d ∉ seen)
      ∧ (dedupLoop l seen).Pairwise (fun a b => drinkKey a ≠ drinkKey b)
  | [], seen => by simp [dedupLoop]
  | d :: ds, seen => by
    by_cases h : drinkKey d ∈ seen
    · simpa [dedupLoop, h] using dedupLoop_fresh ds seen
    · have ih := dedupLoop_fresh ds (drinkKey d :: seen)
      simp only [dedupLoop, if_neg h]
      constructor
      · intro e he
        rcases List.mem_cons.mp he with rfl | he2
        · exact h
        · exact fun hs => ih.1 e he2 (List.mem_cons_of_mem _ hs)
      · refine List.pairwise_cons.mpr ⟨?_, ih.2⟩
        intro e he heq
        exact ih.1 e he (heq ▸ List.mem_cons_self _ _)

/-- The dedup loop leaves a list alone when its keys are pairwise
distinct and disjoint from seen. -/
theorem dedupLoop_eq_self : ∀ (l : List SimplifiedDrink) (seen : List (String × ℚ)),
    (∀ d ∈ l, drinkKey d ∉ seen)
    → l.Pairwise (fun a b => drinkKey a ≠ drinkKey b)
    → dedupLoop l seen = l
  | [], _, _, _ => rfl
  | d :: ds, seen, hmem, hpw => by
    have hd : drinkKey d ∉ seen := hmem d (List.mem_cons_self _ _)
    rcases List.pairwise_cons.mp hpw with ⟨hhead, htail⟩
    simp only [dedupLoop, if_neg hd]
    refine congrArg (d :: ·) (dedupLoop_eq_self ds _ ?_ htail)
    intro e he
    intro hin
    rcases List.mem_cons.mp hin with heq | hin2
    · exact hhead e he heq.symm
    · exact hmem e (List.mem_cons_of_mem _ he) hin2

/-- C9: deduplication of a drink list by the (name, price) pair, keeping
the first occurrence in original order, is idempotent. -/
theorem dedupDrinks_idem (l : List SimplifiedDrink) :
    dedupDrinks (dedupDrinks l) = dedupDrinks l :=
  dedupLoop_eq_self (dedupLoop l []) []
    (fun d _ => List.not_mem_nil (drinkKey d))
    (dedupLoop_fresh l []).2

/-! ## Unpriced drinks -/

/-- A drink whose pint field is missing, null, or 0: truthiness of
d.get(pint) treats all three alike. -/
def unpriced (d : RawDrink) : Prop :=
  d.pint = PyNum.missing ∨ d.pint = PyNum.null ∨ d.pint = PyNum.val 0

/-- All-zero-priced beer lists select no prices. -/
theorem selectedPrices_nil_of_zero : ∀ (l : List RawDrink),
    (∀ d ∈ l, d.pint = PyNum.val 0) → selectedPrices l = []
  | [], _ => rfl
  | d :: ds, h => by
    have hd := h d (List.mem_cons_self _ _)
    have ih := selectedPrices_nil_of_zero ds (fun e he => h e (List.mem_cons_of_mem _ he))
    simp [selectedPrices, hd, ih]

/-- C10: a drink with price 0 (or a missing or null price) contributes
neither to the selected price set used for avg/min/max nor to the
deduplicated drink list, and a venue all of whose classified drinks have
price 0 is dropped (reduced to nothing). -/
theorem unpriced_excluded :
    (∀ (d : RawDrink) (ds : List RawDrink), unpriced d →
        selectedPrices (d :: ds) = selectedPrices ds
          ∧ simplifyDrinks (d :: ds) = simplifyDrinks ds)
    ∧ (∀ v : RawPub, (∀ d ∈ v.drinks, is_beer d = true → d.pint = PyNum.val 0) →
        reducePub v = Except.ok none) := by
  constructor
  · intro d ds hd
    rcases hd with h | h | h <;> simp [selectedPrices, simplifyDrinks, h]
  · intro v hv
    have hb : ∀ d ∈ v.drinks.filter (fun d => is_beer d), d.pint = PyNum.val 0 := by
      intro d hd
      rcases List.mem_filter.mp hd with ⟨hmem, hbeer⟩
      exact hv d hmem hbeer
    have hsel := selectedPrices_nil_of_zero _ hb
    unfold reducePub
    simp only [hsel]
    split <;> rfl

/-- Witness drink for C10: a classified beer priced 0. -/
def zDrink : RawDrink :=
  { name := some "Zero Ale", cat := "ale", abv := Abv.val 4,
    pint := PyNum.val 0, oos := false }

/-- Witness venue for C10: its only classified drink has price 0. -/
def zVenue : RawPub :=
  { name := some "Zero Arms", ref := none, town := some "Zerotown",
    county := none, postcode := none, lat := none, lon := none,
    drinks := [zDrink] }

/-- C10 witness: the exclusion and the venue drop at concrete inputs. -/
theorem unpriced_excluded_witness :
    unpriced zDrink
    ∧ selectedPrices [zDrink, zDrink] = selectedPrices [zDrink]
    ∧ simplifyDrinks [zDrink, zDrink] = simplifyDrinks [zDrink]
    ∧ reducePub zVenue = Except.ok none := by
  refine ⟨Or.inr (Or.inr rfl), ?_, ?_, ?_⟩
  · exact (unpriced_excluded.1 zDrink [zDrink] (Or.inr (Or.inr rfl))).1
  · exact (unpriced_excluded.1 zDrink [zDrink] (Or.inr (Or.inr rfl))).2
  · exact unpriced_excluded.2 zVenue (by decide)

/-! ## Region resolution -/

/-- C7: region resolution strips the county string and does an
exact-match lookup in the static table, mapped region on a hit and the
stripped input unchanged otherwise; in particular Hammersmith resolves
to London, and Atlantis, absent from the table, to itself. -/
theorem resolveRegion_spec :
    (∀ c r, lookupMap REGION_MAP (trimStr c) = some r → resolveRegion c = r)
    ∧ (∀ c, lookupMap REGION_MAP (trimStr c) = none → resolveRegion c = trimStr c)
    ∧ resolveRegion ("Hammersmith") = ("London")
    ∧ resolveRegion ("Atlantis") = ("Atlantis") := by
  refine ⟨?_, ?_, by decide, by decide⟩
  · intro c r h
    unfold resolveRegion
    rw [h]
  · intro c h
    unfold resolveRegion
    rw [h]

/-- C7 witness: a mapped county with surrounding whitespace resolves via
the table. -/
theorem resolveRegion_spec_witness : resolveRegion (" Kent ") = ("South East") :=
  resolveRegion_spec.1 (" Kent ") ("South East") (by decide)

/-! ## Rounding lemmas -/

/-- Round-half-even fixes integers. -/
theorem rhe_intCast (n : ℤ) : rhe ((n : ℚ)) = n := by
  unfold rhe
  rw [Int.floor_intCast]
  norm_num

/-- Evaluation rule: when q lies in [n, n + 1/2), round-half-even gives
n. -/
theorem rhe_eval_low (q : ℚ) (n : ℤ) (h1 : (n : ℚ) ≤ q)
    (h2 : q < (n : ℚ) + 1/2) : rhe q = n := by
  have hfl : Int.floor q = n := by
    rw [Int.floor_eq_iff]
    refine ⟨h1, ?_⟩
    have h12 : (1:ℚ)/2 < 1 := by norm_num
    push_cast
    linarith
  unfold rhe
  rw [hfl, if_pos]
  linarith

/-- Round-half-even is monotone. -/
theorem rhe_mono {x y : ℚ} (h : x ≤ y) : rhe x ≤ rhe y := by
  unfold rhe
  have hf : Int.floor x ≤ Int.floor y := Int.floor_mono h
  by_cases hfe : Int.floor x = Int.floor y
  · rw [hfe]
    have hxy : x - (Int.floor y : ℚ) ≤ y - (Int.floor y : ℚ) := by
      rw [← hfe]
      push_cast [hfe]
      linarith
    split_ifs <;> first | linarith | (exfalso; linarith)
  · have hlt : Int.floor x + 1 ≤ Int.floor y := by omega
    split_ifs <;> first | linarith | (exfalso; linarith)

/-- 2-decimal rounding is monotone. -/
theorem round2_mono {x y : ℚ} (h : x ≤ y) : round2 x ≤ round2 y := by
  unfold round2
  have hr : rhe (100 * x) ≤ rhe (100 * y) := rhe_mono (by linarith)
  have h100 : (0:ℚ) < 100 := by norm_num
  exact (div_le_div_right h100).mpr (by exact_mod_cast hr)

/-- 2-decimal rounding fixes whole-penny amounts. -/
theorem round2_penny {q : ℚ} (h : isPenny q) : round2 q = q := by
  unfold round2
  have hnum : (((100 * q).num : ℤ) : ℚ) = 100 * q := (Rat.den_eq_one_iff _).mp h
  have h2 : rhe (100 * q) = rhe ((((100 * q).num : ℤ) : ℚ)) :=
    congrArg rhe hnum.symm
  rw [h2, rhe_intCast, hnum]
  exact mul_div_cancel_left₀ q (by norm_num)

/-! ## Min, max and mean lemmas -/

theorem foldl_min_le_start : ∀ (xs : List ℚ) (x : ℚ), xs.foldl min x ≤ x
  | [], x => le_refl x
  | y :: ys, x => le_trans (foldl_min_le_start ys (min x y)) (min_le_left x y)

theorem foldl_min_le_mem : ∀ (xs : List ℚ) (x q : ℚ), q ∈ xs → xs.foldl min x ≤ q
  | y :: ys, x, q, h => by
    rcases List.mem_cons.mp h with rfl | h2
    · exact le_trans (foldl_min_le_start ys (min x q)) (min_le_right x q)
    · exact foldl_min_le_mem ys (min x y) q h2

theorem foldl_min_mem : ∀ (xs : List ℚ) (x : ℚ), xs.foldl min x ∈ x :: xs
  | [], x => List.mem_cons_self x []
  | y :: ys, x => by
    have ih := foldl_min_mem ys (min x y)
    rcases List.mem_cons.mp ih with h | h
    · rcases min_choice x y with hm | hm
      · rw [List.foldl_cons, h, hm]
        exact List.mem_cons_self _ _
      · rw [List.foldl_cons, h, hm]
        exact List.mem_cons_of_mem _ (List.mem_cons_self _ _)
    · exact List.mem_cons_of_mem _ (List.mem_cons_of_mem _ h)

theorem foldl_max_ge_start : ∀ (xs : List ℚ) (x : ℚ), x ≤ xs.foldl max x
  | [], x => le_refl x
  | y :: ys, x => le_trans (le_max_left x y) (foldl_max_ge_start ys (max x y))

theorem foldl_max_ge_mem : ∀ (xs : List ℚ) (x q : ℚ), q ∈ xs → q ≤ xs.foldl max x
  | y :: ys, x, q, h => by
    rcases List.mem_cons.mp h with rfl | h2
    · exact le_trans (le_max_right x q) (foldl_max_ge_start ys (max x q))
    · exact foldl_max_ge_mem ys (max x y) q h2

theorem foldl_max_mem : ∀ (xs : List ℚ) (x : ℚ), xs.foldl max x ∈ x :: xs
  | [], x => List.mem_cons_self x []
  | y :: ys, x => by
    have ih := foldl_max_mem ys (max x y)
    rcases List.mem_cons.mp ih with h | h
    · rcases max_choice x y with hm | hm
      · rw [List.foldl_cons, h, hm]
        exact List.mem_cons_self _ _
      · rw [List.foldl_cons, h, hm]
        exact List.mem_cons_of_mem _ (List.mem_cons_self _ _)
    · exact List.mem_cons_of_mem _ (List.mem_cons_of_mem _ h)

/-- pyMin of a non-empty list is one of its elements. -/
theorem pyMin_mem (p : ℚ) (ps : List ℚ) : pyMin (p :: ps) ∈ p :: ps :=
  foldl_min_mem ps p

/-- pyMin of a non-empty list bounds every element from below. -/
theorem pyMin_le (p q : ℚ) (ps : List ℚ) (h : q ∈ p :: ps) : pyMin (p :: ps) ≤ q := by
  rcases List.mem_cons.mp h with rfl | h2
  · exact foldl_min_le_start ps q
  · exact foldl_min_le_mem ps p q h2

/-- pyMax of a non-empty list is one of its elements. -/
theorem pyMax_mem (p : ℚ) (ps : List ℚ) : pyMax (p :: ps) ∈ p :: ps :=
  foldl_max_mem ps p

/-- pyMax of a non-empty list bounds every element from above. -/
theorem pyMax_ge (p q : ℚ) (ps : List ℚ) (h : q ∈ p :: ps) : q ≤ pyMax (p :: ps) := by
  rcases List.mem_cons.mp h with rfl | h2
  · exact foldl_max_ge_start ps q
  · exact foldl_max_ge_mem ps p q h2

theorem length_mul_le_sum : ∀ (l : List ℚ) (m : ℚ),
    (∀ q ∈ l, m ≤ q) → (l.length : ℚ) * m ≤ l.sum
  | [], _, _ => by simp
  | q :: l, m, h => by
    have ih := length_mul_le_sum l m (fun r hr => h r (List.mem_cons_of_mem _ hr))
    have hq := h q (List.mem_cons_self _ _)
    simp only [List.length_cons, List.sum_cons]
    push_cast
    linarith

theorem sum_le_length_mul : ∀ (l : List ℚ) (m : ℚ),
    (∀ q ∈ l, q ≤ m) → l.sum ≤ (l.length : ℚ) * m
  | [], _, _ => by simp
  | q :: l, m, h => by
    have ih := sum_le_length_mul l m (fun r hr => h r (List.mem_cons_of_mem _ hr))
    have hq := h q (List.mem_cons_self _ _)
    simp only [List.length_cons, List.sum_cons]
    push_cast
    linarith

/-- The mean of a non-empty list is at least its minimum. -/
theorem pyMin_le_mean (p : ℚ) (ps : List ℚ) : pyMin (p :: ps) ≤ mean (p :: ps) := by
  have hlen : (0:ℚ) < ((p :: ps).length : ℚ) := by
    simp only [List.length_cons]
    push_cast
    positivity
  have hs := length_mul_le_sum (p :: ps) (pyMin (p :: ps)) (pyMin_le p · ps)
  unfold mean
  rw [le_div_iff hlen]
  linarith

/-- The mean of a non-empty list is at most its maximum. -/
theorem mean_le_pyMax (p : ℚ) (ps : List ℚ) : mean (p :: ps) ≤ pyMax (p :: ps) := by
  have hlen : (0:ℚ) < ((p :: ps).length : ℚ) := by
    simp only [List.length_cons]
    push_cast
    positivity
  have hs := sum_le_length_mul (p :: ps) (pyMax (p :: ps)) (fun q hq => pyMax_ge p q ps hq)
  unfold mean
  rw [div_le_iff hlen]
  linarith

/-! ## Venue statistics (C3) -/

/-- A successfully reduced venue draws avg, min and max from one and the
same non-empty selected price list. -/
theorem reducePub_ok_some (v : RawPub) (r : CleanPub)
    (h : reducePub v = Except.ok (some r)) :
    ∃ p ps, selectedPrices (v.drinks.filter (fun d => is_beer d)) = p :: ps
      ∧ r.avg = round2 (mean (p :: ps))
      ∧ r.mn = pyMin (p :: ps)
      ∧ r.mx = pyMax (p :: ps) := by
  simp only [reducePub] at h
  split at h
  · simp at h
  · split at h
    · simp at h
    · rename_i p ps hsel
      split at h
      · simp at h
      · split at h
        · simp at h
        · split at h
          · simp at h
          · rename_i c hmk
            have hcr : c = r := by simpa using h
            unfold mkCleanPub at hmk
            split at hmk
            · simp at hmk
            · split at hmk
              · simp at hmk
              · injection hmk with hc
                refine ⟨p, ps, hsel, ?_, ?_, ?_⟩ <;> rw [← hcr, ← hc]

/-- C3 (amended): for every reduced venue, avg is the 2-decimal
round-half-even of the mean of exactly the same selected in-stock price
set from which min and max are taken; and provided those selected prices
are whole-penny amounts, min ≤ avg ≤ max.  (Without the whole-penny
proviso the inequality can fail: rounding the mean of sub-penny prices
can move it below the minimum, see the counterexample.) -/
theorem venue_stats_bounds (v : RawPub) (r : CleanPub)
    (h : reducePub v = Except.ok (some r))
    (hp : ∀ q ∈ selectedPrices (v.drinks.filter (fun d => is_beer d)), isPenny q) :
    (r.avg = round2 (mean (selectedPrices (v.drinks.filter (fun d => is_beer d))))
      ∧ r.mn = pyMin (selectedPrices (v.drinks.filter (fun d => is_beer d)))
      ∧ r.mx = pyMax (selectedPrices (v.drinks.filter (fun d => is_beer d))))
    ∧ r.mn ≤ r.avg ∧ r.avg ≤ r.mx := by
  obtain ⟨p, ps, hsel, havg, hmn, hmx⟩ := reducePub_ok_some v r h
  rw [hsel] at hp ⊢
  refine ⟨⟨havg, hmn, hmx⟩, ?_, ?_⟩
  · have hpen : isPenny (pyMin (p :: ps)) := hp _ (pyMin_mem p ps)
    have h2 : round2 (pyMin (p :: ps)) ≤ round2 (mean (p :: ps)) :=
      round2_mono (pyMin_le_mean p ps)
    rw [round2_penny hpen] at h2
    rw [havg, hmn]
    exact h2
  · have hpen : isPenny (pyMax (p :: ps)) := hp _ (pyMax_mem p ps)
    have h2 : round2 (mean (p :: ps)) ≤ round2 (pyMax (p :: ps)) :=
      round2_mono (mean_le_pyMax p ps)
    rw [round2_penny hpen] at h2
    rw [havg, hmx]
    exact h2

/-- Closed-form reduction of a venue holding a single in-stock, priced,
classified drink. -/
theorem reducePub_one (pub : RawPub) (d : RawDrink) (nm tw dn : String) (q : ℚ)
    (hdrinks : pub.drinks = [d]) (hname : pub.name = some nm)
    (htown : pub.town = some tw) (hdn : d.name = some dn)
    (hpint : d.pint = PyNum.val q) (hoos : d.oos = false)
    (hq : q ≠ 0) (hbeer : is_beer d = true) :
    reducePub pub = Except.ok (some
      { name := nm, ref := pub.ref, town := tw,
        county := pub.county.getD "", postcode := pub.postcode.getD "",
        lat := pub.lat, lon := pub.lon,
        avg := round2 (mean [q]), mn := q, mx := q, cheapest := some dn,
        beers := 1, drinks := [{ name := dn, price := q, abv := d.abv }] }) := by
  simp [reducePub, mkCleanPub, selectedPrices, cheapestName, simplifyDrinks,
    dedupDrinks, dedupLoop, drinkKey, pyMin, pyMax, List.insertionSort,
    List.orderedInsert, hdrinks, hname, htown, hdn, hpint, hoos, hq, hbeer]

/-- Counterexample drink for C3: a classified beer priced at a sub-penny
amount (3.001). -/
def cex3Drink : RawDrink :=
  { name := some "Odd Ale", cat := "ale", abv := Abv.val 4,
    pint := PyNum.val (3001/1000), oos := false }

/-- Counterexample venue for C3. -/
def cex3Pub : RawPub :=
  { name := some "Odd Arms", ref := none, town := some "Oddtown",
    county := none, postcode := none, lat := none, lon := none,
    drinks := [cex3Drink] }

/-- The reduced record of the counterexample venue: the average 3.001
rounds down to 3.00, strictly below the minimum 3.001. -/
def cex3Clean : CleanPub :=
  { name := "Odd Arms", ref := none, town := "Oddtown", county := "",
    postcode := "", lat := none, lon := none,
    avg := 3, mn := 3001/1000, mx := 3001/1000,
    cheapest := some "Odd Ale", beers := 1,
    drinks := [{ name := "Odd Ale", price := 3001/1000, abv := Abv.val 4 }] }

/-- C3 counterexample: at a concrete venue whose one selected price is
3.001, the reduced venue has average 3.00 < min 3.001, so
min ≤ average fails as stated. -/
theorem venue_stats_cex :
    reducePub cex3Pub = Except.ok (some cex3Clean)
    ∧ ¬ (cex3Clean.mn ≤ cex3Clean.avg) := by
  constructor
  · have h0 := reducePub_one cex3Pub cex3Drink ("Odd Arms") ("Oddtown")
      ("Odd Ale") (3001/1000) rfl rfl rfl rfl rfl rfl (by norm_num) (by decide)
    have hm : mean [(3001/1000 : ℚ)] = 3001/1000 := by
      simp [mean]
    have hr : round2 ((3001:ℚ)/1000) = 3 := by
      unfold round2
      have h300 : rhe (100 * ((3001:ℚ)/1000)) = 300 :=
        rhe_eval_low _ 300 (by norm_num) (by norm_num)
      rw [h300]
      norm_num
    rw [h0, hm, hr]
    rfl
  · simp only [cex3Clean]
    norm_num

/-- Witness drink for the amended C3: a classified beer priced at a whole
number of pennies. -/
def w3Drink : RawDrink :=
  { name := some "Even Ale", cat := "ale", abv := Abv.val 4,
    pint := PyNum.val 3, oos := false }

/-- Witness venue for the amended C3. -/
def w3Pub : RawPub :=
  { name := some "Even Arms", ref := none, town := some "Eventown",
    county := none, postcode := none, lat := none, lon := none,
    drinks := [w3Drink] }

/-- Its reduced record. -/
def w3Clean : CleanPub :=
  { name := "Even Arms", ref := none, town := "Eventown", county := "",
    postcode := "", lat := none, lon := none,
    avg := 3, mn := 3, mx := 3,
    cheapest := some "Even Ale", beers := 1,
    drinks := [{ name := "Even Ale", price := 3, abv := Abv.val 4 }] }

/-- C3 witness: the amended claim applied at a concrete venue whose
selected prices are whole-penny amounts. -/
theorem venue_stats_bounds_witness :
    w3Clean.mn ≤ w3Clean.avg ∧ w3Clean.avg ≤ w3Clean.mx := by
  have hm : mean [(3 : ℚ)] = 3 := by simp [mean]
  have hr : round2 ((3:ℚ)) = 3 := by
    unfold round2
    have h300 : rhe (100 * (3:ℚ)) = 300 :=
      rhe_eval_low _ 300 (by norm_num) (by norm_num)
    rw [h300]
    norm_num
  have hok : reducePub w3Pub = Except.ok (some w3Clean) := by
    have h0 := reducePub_one w3Pub w3Drink ("Even Arms") ("Eventown")
      ("Even Ale") 3 rfl rfl rfl rfl rfl rfl (by norm_num) (by decide)
    rw [h0, hm, hr]
    rfl
  have hp : ∀ q ∈ selectedPrices (w3Pub.drinks.filter (fun d => is_beer d)),
      isPenny q := by
    have hsp : selectedPrices (w3Pub.drinks.filter (fun d => is_beer d)) = [(3:ℚ)] := by
      decide
    rw [hsp]
    intro q hq
    rw [List.mem_singleton.mp hq]
    with_unfolding_all decide
  exact (venue_stats_bounds w3Pub w3Clean hok hp).2

/-! ## Reducer error behaviour (C2) -/

/-- The cheapest-name scan cannot raise when every drink in the list
carries its pint key and its name key. -/
theorem cheapestName_ok : ∀ (l : List RawDrink) (q : ℚ),
    (∀ d ∈ l, d.pint ≠ PyNum.missing ∧ d.name ≠ none) →
    ∃ o, cheapestName l q = Except.ok o
  | [], _, _ => ⟨none, rfl⟩
  | d :: ds, q, h => by
    have hd := h d (List.mem_cons_self _ _)
    have ih := cheapestName_ok ds q (fun e he => h e (List.mem_cons_of_mem _ he))
    cases hp : d.pint with
    | missing => exact absurd hp hd.1
    | null =>
      simp only [cheapestName, hp]
      exact ih
    | val p =>
      simp only [cheapestName, hp]
      by_cases hc : p = q ∧ d.oos = false
      · rw [if_pos hc]
        cases hn : d.name with
        | none => exact absurd hn hd.2
        | some nm => exact ⟨some nm, rfl⟩
      · rw [if_neg hc]
        exact ih

/-- The drink-list projection cannot raise when every drink in the list
carries its name key. -/
theorem simplifyDrinks_ok : ∀ (l : List RawDrink),
    (∀ d ∈ l, d.name ≠ none) → ∃ sd, simplifyDrinks l = Except.ok sd
  | [], _ => ⟨[], rfl⟩
  | d :: ds, h => by
    have hd := h d (List.mem_cons_self _ _)
    obtain ⟨sd, hsd⟩ := simplifyDrinks_ok ds (fun e he => h e (List.mem_cons_of_mem _ he))
    cases hp : d.pint with
    | missing =>
      simp only [simplifyDrinks, hp]
      exact ⟨sd, hsd⟩
    | null =>
      simp only [simplifyDrinks, hp]
      exact ⟨sd, hsd⟩
    | val p =>
      simp only [simplifyDrinks, hp]
      by_cases hc : p ≠ 0 ∧ d.oos = false
      · rw [if_pos hc]
        cases hn : d.name with
        | none => exact absurd hn hd
        | some nm =>
          rw [hsd]
          exact ⟨_, rfl⟩
      · rw [if_neg hc]
        exact ⟨sd, hsd⟩

/-- C2 (amended): venue reduction raises no error and returns either a
reduced venue or nothing, provided the venue's required fields (name,
town) are present and every classified drink carries its name and pint
keys (a null pint value is fine).  (Without the key-presence proviso the
reducer can raise: the cheapest-name scan and the dedup pass subscript
those keys directly, see the counterexample.) -/
theorem reducePub_no_error (v : RawPub)
    (hn : v.name ≠ none) (ht : v.town ≠ none)
    (hd : ∀ d ∈ v.drinks, is_beer d = true →
      d.pint ≠ PyNum.missing ∧ d.name ≠ none) :
    ∃ r, reducePub v = Except.ok r := by
  have hb : ∀ d ∈ v.drinks.filter (fun d => is_beer d),
      d.pint ≠ PyNum.missing ∧ d.name ≠ none := by
    intro d hdm
    rcases List.mem_filter.mp hdm with ⟨h1, h2⟩
    exact hd d h1 h2
  obtain ⟨nm, hnm⟩ := Option.ne_none_iff_exists'.mp hn
  obtain ⟨tw, htw⟩ := Option.ne_none_iff_exists'.mp ht
  simp only [reducePub]
  split
  · exact ⟨none, rfl⟩
  · split
    · exact ⟨none, rfl⟩
    · rename_i p ps hsel
      obtain ⟨cn, hcn⟩ := cheapestName_ok _ (pyMin (p :: ps)) hb
      obtain ⟨sd, hsd⟩ := simplifyDrinks_ok _ (fun d hdm => (hb d hdm).2)
      rw [hcn, hsd]
      simp only [mkCleanPub, hnm, htw]
      exact ⟨_, rfl⟩

/-- Counterexample drinks for C2: a classified beer with no pint key at
all, listed before a priced one. -/
def cex2A : RawDrink :=
  { name := some "Ale One", cat := "ale", abv := Abv.unparsed,
    pint := PyNum.missing, oos := false }

def cex2B : RawDrink :=
  { name := some "Ale Two", cat := "ale", abv := Abv.unparsed,
    pint := PyNum.val 3, oos := false }

/-- Counterexample venue for C2: name and town are present. -/
def cex2Pub : RawPub :=
  { name := some "Crash Arms", ref := none, town := some "Crashtown",
    county := none, postcode := none, lat := none, lon := none,
    drinks := [cex2A, cex2B] }

/-- C2 counterexample: a venue with both required fields present, one
classified drink missing its pint key and another priced, makes the
reducer raise (KeyError in the cheapest-name scan) instead of absorbing
the anomaly. -/
theorem reducePub_cex :
    cex2Pub.name ≠ none ∧ cex2Pub.town ≠ none
    ∧ reducePub cex2Pub = Except.error keyErrPint := by
  refine ⟨by decide, by decide, by rfl⟩

/-- Witness venue for the amended C2: required fields present, its one
classified drink has name and pint keys (pint null). -/
def w2Pub : RawPub :=
  { name := some "Good Arms", ref := none, town := some "Goodtown",
    county := none, postcode := none, lat := none, lon := none,
    drinks := [{ name := some "Nice Stout", cat := "stout",
                 abv := Abv.unparsed, pint := PyNum.null, oos := false }] }

/-- C2 witness: the amended claim applied at a concrete venue. -/
theorem reducePub_no_error_witness :
    w2Pub.name ≠ none ∧ w2Pub.town ≠ none
    ∧ (∀ d ∈ w2Pub.drinks, is_beer d = true →
        d.pint ≠ PyNum.missing ∧ d.name ≠ none)
    ∧ ∃ r, reducePub w2Pub = Except.ok r := by
  refine ⟨by decide, by decide, by decide,
    reducePub_no_error w2Pub (by decide) (by decide) (by decide)⟩

/-! ## Regional rollup (C6) -/

/-- Length of a filterMap built from a guard equals the length of the
corresponding filter. -/
theorem filterMap_ite_length {α β : Type} (p : α → Prop) [DecidablePred p]
    (f : α → β) :
    ∀ l : List α,
      (l.filterMap (fun a => if p a then some (f a) else none)).length
        = (l.filter (fun a => decide (p a))).length
  | [] => rfl
  | a :: l => by
    by_cases h : p a <;>
      simp [List.filterMap_cons, List.filter_cons, h, filterMap_ite_length p f l]

/-- C6: the regional output holds a stat exactly for each region group
with at least 2 member venues (singleton groups never appear), the stat
being name, 2-decimal-rounded mean of the member averages, member count
and rounded min/max of those member averages; the output list is sorted
descending by average; and its length is the number of groups of size at
least 2. -/
theorem regional_exact (cps : List CleanPub) :
    (∀ s, s ∈ regionalOf cps ↔
      ∃ g ∈ regionGroups cps, 2 ≤ g.2.length ∧ s = mkRegionStat g.1 g.2)
    ∧ (regionalOf cps).Sorted regionOrd
    ∧ (regionalOf cps).length
        = ((regionGroups cps).filter (fun g => decide (2 ≤ g.2.length))).length := by
  refine ⟨?_, ?_, ?_⟩
  · intro s
    unfold regionalOf
    rw [List.mem_insertionSort, List.mem_filterMap]
    constructor
    · rintro ⟨g, hg, hf⟩
      by_cases h2 : 2 ≤ g.2.length
      · rw [if_pos h2] at hf
        exact ⟨g, hg, h2, (Option.some_inj.mp hf).symm⟩
      · rw [if_neg h2] at hf
        exact absurd hf (by simp)
    · rintro ⟨g, hg, h2, rfl⟩
      exact ⟨g, hg, by rw [if_pos h2]⟩
  · exact List.sorted_insertionSort regionOrd _
  · unfold regionalOf
    rw [(List.perm_insertionSort regionOrd _).length_eq]
    exact filterMap_ite_length _ _ _

/-- Witness pubs for C6: two reduced venues in Fife (region Scotland),
averages 3.00 and 4.00. -/
def w6A : CleanPub :=
  { name := "A Arms", ref := none, town := "Anstruther", county := "Fife",
    postcode := "", lat := none, lon := none, avg := 3, mn := 3, mx := 3,
    cheapest := none, beers := 1, drinks := [] }

def w6B : CleanPub :=
  { name := "B Arms", ref := none, town := "Burntisland", county := "Fife",
    postcode := "", lat := none, lon := none, avg := 4, mn := 4, mx := 4,
    cheapest := none, beers := 1, drinks := [] }

/-- The expected Scotland stat for the two witness pubs. -/
def w6Stat : RegionStat :=
  { name := "Scotland", avg := 7/2, pubs := 2, mn := 3, mx := 4 }

/-- C6 witness: at two concrete venues grouped into one region of size 2,
the stat of that group is in the regional output and the output is
sorted. -/
theorem regional_exact_witness :
    w6Stat ∈ regionalOf [w6A, w6B]
      ∧ (regionalOf [w6A, w6B]).Sorted regionOrd := by
  have hgroups : regionGroups [w6A, w6B] = [(("Scotland"), [3, 4])] := by decide
  have hmean : mean [(3:ℚ), 4] = 7/2 := by
    simp [mean]
    norm_num
  have h1 : round2 ((7:ℚ)/2) = 7/2 := by
    unfold round2
    have h350 : rhe (100 * ((7:ℚ)/2)) = 350 :=
      rhe_eval_low _ 350 (by norm_num) (by norm_num)
    rw [h350]
    norm_num
  have h2 : round2 ((3:ℚ)) = 3 := by
    unfold round2
    have h300 : rhe (100 * (3:ℚ)) = 300 :=
      rhe_eval_low _ 300 (by norm_num) (by norm_num)
    rw [h300]
    norm_num
  have h3 : round2 ((4:ℚ)) = 4 := by
    unfold round2
    have h400 : rhe (100 * (4:ℚ)) = 400 :=
      rhe_eval_low _ 400 (by norm_num) (by norm_num)
    rw [h400]
    norm_num
  have hmin : pyMin [(3:ℚ), 4] = 3 := by
    simp [pyMin]
    norm_num
  have hmax : pyMax [(3:ℚ), 4] = 4 := by
    simp [pyMax]
    norm_num
  have hstat : mkRegionStat ("Scotland") [3, 4] = w6Stat := by
    unfold mkRegionStat w6Stat
    rw [hmean, h1, hmin, h2, hmax, h3]
    rfl
  constructor
  · exact ((regional_exact [w6A, w6B]).1 w6Stat).mpr
      ⟨(("Scotland"), [3, 4]), by rw [hgroups]; exact List.mem_cons_self _ _,
        by decide, hstat.symm⟩
  · exact (regional_exact [w6A, w6B]).2.1

/-! ## Priciest leaderboard (C8) -/

/-- The last n elements reversed are the first n of the reversed list. -/
theorem lastN_reverse {α : Type} (n : ℕ) (l : List α) :
    (lastN n l).reverse = l.reverse.take n := by
  have h : lastN n l = List.rtake l n := rfl
  rw [h, List.rtake_eq_reverse_take_reverse, List.reverse_reverse]

/-- C8 (amended): the priciest leaderboard is the last 20 venues of the
ascending-by-average sorted list, reversed — equivalently the first 20 of
the descending list — projected to the cheapest leaderboard's field set
with max price replacing min price and with the cheapest-drink-name field
omitted. -/
theorem priciest_board (fd : String) (cps : List CleanPub) :
    (buildReport fd cps).priciest
        = ((List.insertionSort pubOrd cps).reverse.take 20).map priciestEntry
    ∧ (∀ p, (priciestEntry p).map Prod.fst
        = [("name"), ("town"), ("postcode"), ("avg"), ("max"), ("lat"), ("lon")])
    ∧ (∀ p, (cheapestEntry p).map Prod.fst
        = [("name"), ("town"), ("postcode"), ("avg"), ("min"), ("cheapest"),
           ("lat"), ("lon")]) := by
  refine ⟨?_, fun p => rfl, fun p => rfl⟩
  have h : (buildReport fd cps).priciest
      = ((lastN 20 (List.insertionSort pubOrd cps)).reverse).map priciestEntry := rfl
  rw [h, lastN_reverse]

/-- Modelled from the claim's words, for comparison with the code: the
cheapest leaderboard projection with max price substituted for min
price (and nothing else changed). -/
def specPriciestEntry (p : CleanPub) : List (String × Val) :=
  (cheapestEntry p).map
    (fun kv => if kv.1 = "min" then (("max"), Val.n p.mx) else kv)

/-- Counterexample venue for C8. -/
def w8Pub : CleanPub :=
  { name := "P Arms", ref := none, town := "Ptown", county := "",
    postcode := "", lat := none, lon := none, avg := 4, mn := 3, mx := 5,
    cheapest := some "Cheap One", beers := 1, drinks := [] }

/-- C8 counterexample: at a one-venue input the priciest leaderboard
entry is not the cheapest-projection-with-max-for-min of that venue —
the code also drops the cheapest-drink-name field. -/
theorem priciest_board_cex :
    (buildReport ("") [w8Pub]).priciest ≠ [specPriciestEntry w8Pub] := by
  decide

/-! ## Empty result set (C1) -/

/-- C1: on an input with no venues (so the reduced list is empty), the
run aborts before writing any output, but it does so by raising the very
division-by-zero error (at the national-average computation) that the
specification says a clear run-level diagnostic should replace. -/
theorem mainPipeline_empty :
    mainPipeline { pubs := [], fetchDate := "" } = Except.error zeroDivErr := by
  rfl
